import Mathlib

/-!
Verification development for the `bencinmonitor/api` station-query service
(`src/api.py`). The Python source is shallowly embedded below: JSON-like
record values become the inductive `Value`, Python dicts become association
lists with Python's insertion-order update semantics (`dict_insert`),
fallible code returns `Except PyErr`, and the external collaborators
(MongoDB store, redis cache, Google geocoder, the `arrow` and `haversine`
libraries) are either explicit function parameters or small documented
models. Floating-point numbers are idealised as rationals in the pipeline
and as real numbers in the distance analysis.
-/

namespace BencinApi

/-- Python exception kinds that the embedded code can raise. -/
inductive PyErr where
  | valueError
  | typeError
  | keyError
  | attributeError
deriving DecidableEq, Repr

/-- JSON-like values stored in station records. Numbers are idealised as
rationals. -/
inductive Value where
  | str (s : String)
  | num (q : ℚ)
  | arr (vs : List Value)
  | obj (fields : List (String × Value))
deriving Repr

/-- A Python dict, modelled as an insertion-ordered association list whose
keys are unique. -/
abbrev Record := List (String × Value)

/-- Python dict assignment `d[k] = v`: updating an existing key keeps its
position, a new key is appended at the end. -/
def dict_insert {β : Type} (d : List (String × β)) (k : String) (v : β) :
    List (String × β) :=
  if d.any (fun kv => kv.1 == k) then
    d.map (fun kv => if kv.1 == k then (kv.1, v) else kv)
  else
    d ++ [(k, v)]

/-- Python `d.get(k)` / `k in d`: first binding of `k`, if any. -/
def dict_lookup {β : Type} (d : List (String × β)) (k : String) : Option β :=
  (d.find? (fun kv => kv.1 == k)).map (fun kv => kv.2)

/-- Python `d[k]`, raising `KeyError` when the key is absent. -/
def dict_get {β : Type} (d : List (String × β)) (k : String) :
    Except PyErr β :=
  match dict_lookup d k with
  | some v => Except.ok v
  | none => Except.error PyErr.keyError

/-- Decidable equality of `Except` results. -/
instance {ε α : Type} [DecidableEq ε] [DecidableEq α] :
    DecidableEq (Except ε α) := fun a b =>
  match a, b with
  | Except.error e, Except.error f =>
    if h : e = f then Decidable.isTrue (by rw [h])
    else Decidable.isFalse (fun hc => h (by injection hc))
  | Except.error _, Except.ok _ => Decidable.isFalse (fun hc => by injection hc)
  | Except.ok _, Except.error _ => Decidable.isFalse (fun hc => by injection hc)
  | Except.ok x, Except.ok y =>
    if h : x = y then Decidable.isTrue (by rw [h])
    else Decidable.isFalse (fun hc => h (by injection hc))

/-!
The Lean core `String` functions (`splitOn`, `replace`, `toInt?`, ...)
are implemented with position-based loops that the kernel cannot reduce,
so the embedding uses character-list implementations of the Python
string operations the source relies on. Each is semantically the plain
Python operation restricted to the shapes the source uses.
-/

/-- Splits a character list at every occurrence of the separator;
mirrors Python's `str.split(sep)` for a one-character separator. -/
def splitChar (sep : Char) : List Char → List (List Char)
  | [] => [[]]
  | c :: cs =>
    let rest := splitChar sep cs
    if c = sep then [] :: rest
    else
      match rest with
      | [] => [[c]]
      | w :: ws => (c :: w) :: ws

/-- Python `s.split(sep)` for a one-character separator. -/
def pySplit (s : String) (sep : Char) : List String :=
  (splitChar sep s.data).map String.mk

/-- Python `s.replace(old, new)` for one-character pattern and
replacement, as in the source's hyphen/underscore rewrites. -/
def pyReplaceChar (s : String) (old new : Char) : String :=
  String.mk (s.data.map (fun c => if c = old then new else c))

/-- Python `c in s` for a one-character needle, as in the source's
`'.' in key`. -/
def pyContains (s : String) (c : Char) : Bool :=
  s.data.contains c

/-- Parses a non-empty all-digit character list as a natural number. -/
def digitsToNat? (l : List Char) : Option Nat :=
  match l with
  | [] => none
  | _ =>
    l.foldl
      (fun acc c =>
        match acc, (if c.isDigit then some (c.toNat - '0'.toNat) else none) with
        | some n, some d => some (n * 10 + d)
        | _, _ => none)
      (some 0)

/-- Embeds `unslugify_dict` (api.py line 116): a dict comprehension that
replaces every hyphen in every key by an underscore. Keys that collide
after the rewrite follow Python dict-comprehension semantics: the later
entry wins. -/
def unslugify_dict (dic : List (String × Value)) : List (String × Value) :=
  dic.foldl (fun acc kv => dict_insert acc (pyReplaceChar kv.1 '-' '_') kv.2) []

/-- Embeds `enrich_prices` (api.py line 121): rewrite the keys, then emit
one object per remaining entry with fields `type` and `price`. -/
def enrich_prices (dic : List (String × Value)) : List Value :=
  (unslugify_dict dic).map
    (fun kv => Value.obj [("type", Value.str kv.1), ("price", kv.2)])

/-- Python `int(s)` on a request-parameter string: parses an optionally
signed decimal integer, raising `ValueError` otherwise. -/
def parseInt (s : String) : Except PyErr Int :=
  match
    (match s.data with
     | '-' :: rest => (digitsToNat? rest).map (fun n => -(n : Int))
     | '+' :: rest => (digitsToNat? rest).map (fun n => (n : Int))
     | l => (digitsToNat? l).map (fun n => (n : Int))) with
  | some v => Except.ok v
  | none => Except.error PyErr.valueError

/-- Python `float(s)` on an unsigned plain decimal literal (integer part,
optional fractional part), which is the only shape the service's `at`
parameter uses. -/
def parseDecimalCore (t : List Char) : Option ℚ :=
  match splitChar '.' t with
  | [i] => (digitsToNat? i).map (fun n => (n : ℚ))
  | [i, f] =>
    if i = [] ∧ f = [] then none
    else
      match (if i = [] then some 0 else digitsToNat? i),
            (if f = [] then some 0 else digitsToNat? f) with
      | some ip, some fp => some ((ip : ℚ) + (fp : ℚ) / (10 ^ f.length))
      | _, _ => none
  | _ => none

/-- Python `float(s)` for the embedded pipeline (see `parseDecimalCore`),
with an optional sign. Anything unparsable raises `ValueError`. -/
def parseFloat (s : String) : Except PyErr ℚ :=
  match
    (match s.data with
     | '-' :: rest => (parseDecimalCore rest).map (fun q => -q)
     | '+' :: rest => parseDecimalCore rest
     | l => parseDecimalCore l) with
  | some q => Except.ok q
  | none => Except.error PyErr.valueError

/-- Service configuration (api.py lines 20-24). The environment strings are
parsed by `int` at every use; they are modelled directly as integers. -/
structure Config where
  LIST_LIMIT : Int
  LIST_DEFAULT_COUNT : Int
  DISTANCE_LIMIT : Int
  DISTANCE_DEFAULT : Int
deriving DecidableEq, Repr

/-- The query parameters of one `GET /stations` request; `none` is an
absent parameter, `some s` a present one with raw string value `s`. -/
structure Req where
  prices : Option String
  /-- The `at` query parameter (`at` is reserved in Lean, hence `at_`). -/
  at_ : Option String
  near : Option String
  limit : Option String
  maxDistance : Option String
deriving DecidableEq, Repr

/-- Embeds `safe_limit` (api.py line 140): take the request parameter if
present (else the configured default), parse it as an integer, and return
it unless it reaches the configured ceiling, in which case return the
ceiling. -/
def safe_limit (param : Option String) (ceiling dflt : Int) :
    Except PyErr Int :=
  match param with
  | none => Except.ok (if dflt < ceiling then dflt else ceiling)
  | some s =>
    match parseInt s with
    | Except.ok v => Except.ok (if v < ceiling then v else ceiling)
    | Except.error e => Except.error e

/-- Embeds `safe_distance` (api.py line 146): `safe_limit` on the
`maxDistance` parameter against the distance configuration keys. -/
def safe_distance (cfg : Config) (req : Req) : Except PyErr Int :=
  safe_limit req.maxDistance cfg.DISTANCE_LIMIT cfg.DISTANCE_DEFAULT

/-- The Python value bound to the local variable `at` in `list_stations`:
either a list of coordinates, or the `Exception` object that `geocode`
returns (rather than raises) when the geocoder yields zero results. -/
inductive AtVal where
  | list (cs : List ℚ)
  | exc (msg : String)
deriving DecidableEq, Repr

/-- Python truthiness of the `at` value: a list is truthy when non-empty,
and an `Exception` instance is always truthy. -/
def truthy : AtVal → Bool
  | AtVal.list cs => !cs.isEmpty
  | AtVal.exc _ => true

/-- Models the external `slugify` library as the spec describes it:
lower-case, non-alphanumeric runs collapsed to a hyphen separator,
truncated to the given maximum length. -/
def slugify (s : String) (maxLength : Nat) : String :=
  let cleaned := s.data.map (fun c => if c.isAlphanum then c.toLower else ' ')
  let pieces := (splitChar ' ' cleaned).filter (fun w => w ≠ [])
  String.mk ((List.intercalate ['-'] pieces).take maxLength)

/-- The redis value written for a geocode cache entry: the JSON
serialisation (`json.dumps`) of the coordinate list. JSON round-tripping
is the external `json` module's contract, so the byte string is modelled
by its decoded content. -/
inductive Bytes where
  | jsonList (xs : List ℚ)
deriving DecidableEq, Repr

/-- The redis cache contents visible to `geocode`: key to stored bytes. -/
abbrev Cache := List (String × Bytes)

/-- Python `json.dumps` on a coordinate list (see `Bytes`). -/
def dumps (xs : List ℚ) : Bytes := Bytes.jsonList xs

/-- Python `json.loads` on a cached geocode value (see `Bytes`). -/
def loads : Bytes → List ℚ
  | Bytes.jsonList xs => xs

/-- One observable call to an external collaborator made by `geocode`:
the geocoder HTTP request, or a redis get / expire / set. -/
inductive Op where
  | geocoderCall (address : String)
  | cacheGet (key : String)
  | cacheExpire (key : String) (ttl : Nat)
  | cacheSet (key : String) (value : Bytes) (ttl : Nat)
deriving DecidableEq, Repr

/-- Result of one `geocode` call: the returned value, the cache contents
afterwards, and the trace of external calls in order. -/
structure GeocodeOut where
  result : AtVal
  cache : Cache
  ops : List Op
deriving Repr

/-- The redis key `geocode` computes (api.py line 82): the slug of the
address under the `address:` namespace, length-bounded at 100. -/
def geocode_key (address : String) : String :=
  "address:" ++ slugify address 100

/-- Embeds `geocode` (api.py lines 80-103) against a geocoder capability
`geocoder` returning the `lng`/`lat` pairs of `reply.results` in order.
On a cache hit the entry's TTL is re-armed with `expire` and the decoded
value returned; on a miss the geocoder is called once; with zero results
the function builds and RETURNS an `Exception` object (it does not
raise); otherwise the first result's `lng, lat` pair is cached with the
TTL and returned. -/
def geocode (geocoder : String → List (ℚ × ℚ)) (cache0 : Cache)
    (address : String) (cache : Bool) (expire_ttl : Nat) : GeocodeOut :=
  let key := geocode_key address
  let readOps : List Op :=
    match cache with
    | true => [Op.cacheGet key]
    | false => []
  let hit : Option Bytes :=
    match cache with
    | true => dict_lookup cache0 key
    | false => none
  match hit with
  | some v =>
    { result := AtVal.list (loads v)
      cache := cache0
      ops := readOps ++ [Op.cacheExpire key expire_ttl] }
  | none =>
    match geocoder address with
    | [] =>
      { result := AtVal.exc ("Can't get location " ++ address ++ ".")
        cache := cache0
        ops := readOps ++ [Op.geocoderCall address] }
    | (lng, lat) :: _ =>
      let raw_location := [lng, lat]
      match cache with
      | true =>
        { result := AtVal.list raw_location
          cache := dict_insert cache0 key (dumps raw_location)
          ops := readOps ++ [Op.geocoderCall address,
                             Op.cacheSet key (dumps raw_location) expire_ttl] }
      | false =>
        { result := AtVal.list raw_location
          cache := cache0
          ops := readOps ++ [Op.geocoderCall address] }

/-- The geocoder calls occurring in a trace. -/
def geocoderCalls (ops : List Op) : List String :=
  ops.foldr
    (fun o acc => match o with
      | Op.geocoderCall a => a :: acc
      | _ => acc) []

/-- The cache writes (key, bytes, ttl) occurring in a trace. -/
def cacheWrites (ops : List Op) : List (String × Bytes × Nat) :=
  ops.foldr
    (fun o acc => match o with
      | Op.cacheSet k v t => (k, v, t) :: acc
      | _ => acc) []

/-- The TTL refreshes (key, ttl) occurring in a trace. -/
def cacheRefreshes (ops : List Op) : List (String × Nat) :=
  ops.foldr
    (fun o acc => match o with
      | Op.cacheExpire k t => (k, t) :: acc
      | _ => acc) []

/-- A value of the `mapping` dict handed to `simple_station`: either a
lambda (applied to the field value by `result_of`) or a plain value
(returned as-is), mirroring the `isinstance(result, LambdaType)` dispatch.
Lambdas may raise (e.g. `arrow.get` on malformed input). -/
inductive MapEntry where
  | fn (f : Value → Except PyErr Value)
  | plain (v : Value)

/-- Embeds `result_of` (api.py line 134): look the key up in the mapping
with the field value as default; apply it when it is a lambda, return it
unchanged otherwise. -/
def result_of (mapping : List (String × MapEntry)) (key : String)
    (value : Value) : Except PyErr Value :=
  match dict_lookup mapping key with
  | some (MapEntry.fn f) => f value
  | some (MapEntry.plain r) => Except.ok r
  | none => Except.ok value

/-- Embeds `simple_station` (api.py line 126): keep a field when its key
contains a dot or is in `included_keys`, and pipe each kept value through
`result_of`. -/
def simple_station (station : Record) (included_keys : Option (List String))
    (mapping : Option (List (String × MapEntry))) : Except PyErr Record :=
  let include_keys := included_keys.getD []
  let mapping := mapping.getD []
  (station.filter
      (fun kv => pyContains kv.1 '.' || include_keys.contains kv.1)).mapM
    (fun kv => (result_of mapping kv.1 kv.2).map (fun v => (kv.1, v)))

/-- The lambda registered for the `prices` field (api.py line 64): apply
`enrich_prices` to the mapping; a non-dict value would make Python's
`.items()` raise `AttributeError`. -/
def enrich_prices_transform : Value → Except PyErr Value
  | Value.obj fields => Except.ok (Value.arr (enrich_prices fields))
  | _ => Except.error PyErr.attributeError

/-- The transform mapping built in `list_stations` (api.py lines 63-65).
The `updated_at` lambda wraps the external `arrow` library, taken here as
a capability parameter `isofmt`. -/
def station_mapping (isofmt : Value → Except PyErr Value) :
    List (String × MapEntry) :=
  [("prices", MapEntry.fn enrich_prices_transform),
   ("updated_at", MapEntry.fn isofmt)]

/-- Embeds the `keys` computation of `list_stations` (api.py lines 37-42):
the base field list, with the bare `prices` field replaced by one
`prices.` + token (underscores rewritten to hyphens) entry per requested
token when a non-empty `prices` parameter is present. -/
def build_keys (pricesParam : Option String) : List String :=
  let keys := ["key", "loc", "address", "updated_at", "prices", "scraped_url"]
  match pricesParam with
  | some s =>
    if s ≠ "" then
      (keys ++ (pySplit s ',').map
        (fun p => "prices." ++ pyReplaceChar p '_' '-')).erase "prices"
    else keys
  | none => keys

/-- The MongoDB projection dict `\x7bkey: 1 for key in keys\x7d`
(api.py line 67). -/
def dict_of_ones (keys : List String) : List (String × Int) :=
  keys.foldl (fun acc k => dict_insert acc k 1) []

/-- The value of the `$near` clause the code assembles (api.py line 58):
a Point geometry whose `coordinates` slot holds whatever the local `at`
variable holds (possibly the Exception object), and the clamped
`$maxDistance`. -/
structure GeoNear where
  geometryType : String
  coordinates : AtVal
  maxDistance : Int
deriving DecidableEq, Repr

/-- A value in the `where` filter dict sent to the store: a plain string
or a geospatial-near clause. -/
inductive WVal where
  | str (s : String)
  | geo (g : GeoNear)
deriving DecidableEq, Repr

/-- The arguments of the one store query `list_stations` performs:
filter, projection and result-count limit. -/
structure StoreQuery where
  whereFilter : List (String × WVal)
  projection : List (String × Int)
  resultLimit : Int
deriving DecidableEq, Repr

/-- Embeds the query-building half of `list_stations` (api.py lines
37-68): field list, fixed base filter, `at` parsing, `near` geocoding,
optional geospatial clause with the clamped radius, and the clamped
result limit, with Python's error-raising order preserved. Returns the
composed store query, the resolved `at` value and the field list. -/
def build_query (cfg : Config) (geocoder : String → List (ℚ × ℚ))
    (cache0 : Cache) (req : Req) :
    Except PyErr (StoreQuery × AtVal × List String) :=
  match ((pySplit (req.at_.getD "") ',').filter
      (fun n => n ≠ "")).mapM parseFloat with
  | Except.error e => Except.error e
  | Except.ok at0 =>
    -- `at = None if at is [] else at` (api.py line 50) compares object
    -- identity; a freshly built list is never identical to the literal
    -- `[]`, so the line always leaves `at` unchanged.
    let at2 := match req.near with
      | some s =>
        if s ≠ "" then (geocode geocoder cache0 s true 86400).result
        else AtVal.list at0
      | none => AtVal.list at0
    let whereFilterE : Except PyErr (List (String × WVal)) :=
      if truthy at2 then
        match safe_distance cfg req with
        | Except.error e => Except.error e
        | Except.ok maxD =>
          Except.ok [("company", WVal.str "petrol"),
            ("loc", WVal.geo { geometryType := "Point", coordinates := at2,
                               maxDistance := maxD })]
      else Except.ok [("company", WVal.str "petrol")]
    match whereFilterE with
    | Except.error e => Except.error e
    | Except.ok whereFilter =>
      match safe_limit req.limit cfg.LIST_LIMIT cfg.LIST_DEFAULT_COUNT with
      | Except.error e => Except.error e
      | Except.ok lim =>
        Except.ok ({ whereFilter := whereFilter,
                     projection := dict_of_ones (build_keys req.prices),
                     resultLimit := lim }, at2, build_keys req.prices)

/-- Python `tuple(x)` on the coordinates value pulled out of a record:
only a JSON array of numbers converts; anything else fails. -/
def value_as_tuple : Value → Except PyErr (List ℚ)
  | Value.arr vs => vs.mapM
      (fun v => match v with
        | Value.num q => Except.ok q
        | _ => Except.error PyErr.typeError)
  | _ => Except.error PyErr.typeError

/-- Python `tuple(at)`: converting the Exception object raises
`TypeError` (Exception instances are not iterable). -/
def at_tuple : AtVal → Except PyErr (List ℚ)
  | AtVal.list cs => Except.ok cs
  | AtVal.exc _ => Except.error PyErr.typeError

/-- Embeds `compute_distance` (api.py line 106) against the external
`haversine` library taken as a capability `hav`: sets
`station.distance` to `hav(tuple(station.loc.coordinates), tuple(at))`
times 1000. -/
def compute_distance (hav : List ℚ → List ℚ → ℚ) (station : Record)
    (at2 : AtVal) : Except PyErr Record := do
  let locv ← dict_get station "loc"
  let coordsv ← match locv with
    | Value.obj fields => dict_get fields "coordinates"
    | _ => Except.error PyErr.typeError
  let coords ← value_as_tuple coordsv
  let t ← at_tuple at2
  pure (dict_insert station "distance" (Value.num (hav coords t * 1000)))

/-- The JSON body `list_stations` returns on success (the
`executed_in` wall-clock field is real time and is not modelled). -/
structure Response where
  status : String
  stations : List Record
deriving Repr

/-- Embeds `list_stations` (api.py lines 34-77): build the query, run it
against the store capability, post-process every record with
`simple_station`, and annotate distances when a reference point is
truthy. -/
def list_stations (cfg : Config) (geocoder : String → List (ℚ × ℚ))
    (cache0 : Cache)
    (store : List (String × WVal) → List (String × Int) → Int → List Record)
    (hav : List ℚ → List ℚ → ℚ) (isofmt : Value → Except PyErr Value)
    (req : Req) : Except PyErr Response :=
  match build_query cfg geocoder cache0 req with
  | Except.error e => Except.error e
  | Except.ok (q, at2, keys) =>
    let included_keys := keys ++ ["prices", "distance"]
    match (store q.whereFilter q.projection q.resultLimit).mapM
        (fun s => simple_station s (some included_keys)
          (some (station_mapping isofmt))) with
    | Except.error e => Except.error e
    | Except.ok stations =>
      match (match truthy at2 with
        | true => stations.mapM (fun s => compute_distance hav s at2)
        | false => Except.ok stations) with
      | Except.error e => Except.error e
      | Except.ok stations2 =>
        Except.ok { status := "ok", stations := stations2 }

/-! Real-valued model of the distance computation. The external
`haversine` PyPI library takes each point as a `(latitude, longitude)`
pair in degrees and returns the great-circle distance in kilometres on a
spherical Earth; `compute_distance` feeds it the `(longitude, latitude)`
tuples stored in GeoJSON order and multiplies by 1000. Floating-point
arithmetic is idealised over the reals. -/

/-- The mean Earth radius constant of the `haversine` library, in km. -/
noncomputable def EARTH_RADIUS_KM : ℝ := 6371.0088

/-- The standard haversine great-circle distance in kilometres between
two points given as latitude/longitude in degrees. -/
noncomputable def haversineKm (lat1 lon1 lat2 lon2 : ℝ) : ℝ :=
  2 * EARTH_RADIUS_KM * Real.arcsin (Real.sqrt
    (Real.sin ((lat2 * Real.pi / 180 - lat1 * Real.pi / 180) / 2) ^ 2 +
     Real.cos (lat1 * Real.pi / 180) * Real.cos (lat2 * Real.pi / 180) *
       Real.sin ((lon2 * Real.pi / 180 - lon1 * Real.pi / 180) / 2) ^ 2))

/-- The `haversine` library's entry point: each argument is a
`(latitude, longitude)` pair in degrees, the result is in kilometres. -/
noncomputable def haversine_lib (p1 p2 : ℝ × ℝ) : ℝ :=
  haversineKm p1.1 p1.2 p2.1 p2.2

/-- The numeric value `compute_distance` stores (api.py lines 108-111):
the library applied to the two stored tuples, both of which are in
GeoJSON `(longitude, latitude)` order, times 1000. -/
noncomputable def compute_distance_value (loc_coordinates at2 : ℝ × ℝ) : ℝ :=
  haversine_lib loc_coordinates at2 * 1000

/-- Modelled from the spec: the distance contract of section 4.3 /
claim C4 — the standard haversine formula between two points given in
`(longitude, latitude)` order, converted from kilometres to metres by
multiplying by 1000. -/
noncomputable def distanceMeters_spec (a b : ℝ × ℝ) : ℝ :=
  haversineKm a.2 a.1 b.2 b.1 * 1000

/-! Concrete fixtures used by closed counterexamples and witnesses. -/

/-- A geocoder capability that returns zero results for every address. -/
def geocoderEmpty : String → List (ℚ × ℚ) := fun _ => []

/-- A geocoder capability that resolves every address to one result. -/
def geocoderOne : String → List (ℚ × ℚ) := fun _ => [(4, 52)]

/-- A store capability that returns no records. -/
def storeEmpty : List (String × WVal) → List (String × Int) → Int →
    List Record := fun _ _ _ => []

/-- A store capability returning one record with a `key` field and the
automatic MongoDB `_id` field. -/
def storeOne : List (String × WVal) → List (String × Int) → Int →
    List Record :=
  fun _ _ _ => [[("key", Value.str "s1"), ("_id", Value.str "oid")]]

/-- A stand-in haversine capability for runs whose distance values are
irrelevant. -/
def havZero : List ℚ → List ℚ → ℚ := fun _ _ => 0

/-- A stand-in for the `arrow` timestamp-rendering capability that
succeeds on every value. -/
def isofmtId : Value → Except PyErr Value := fun v => Except.ok v

/-- The shipped configuration defaults (api.py lines 20-24). -/
def cfg0 : Config :=
  { LIST_LIMIT := 50, LIST_DEFAULT_COUNT := 10,
    DISTANCE_LIMIT := 50000, DISTANCE_DEFAULT := 10000 }

/-- A request with no parameters supplied. -/
def reqEmpty : Req :=
  { prices := none, at_ := none, near := none, limit := none,
    maxDistance := none }

/-- A request supplying only the literal coordinate pair `2,3`. -/
def reqAtPair : Req :=
  { prices := none, at_ := some "2,3", near := none, limit := none,
    maxDistance := none }

/-- The geospatial clause `build_query` assembles for `reqAtPair` under
the shipped configuration. -/
def geoAtPair : GeoNear :=
  { geometryType := "Point",
    coordinates := AtVal.list [((2 : ℕ) : ℚ), ((3 : ℕ) : ℚ)],
    maxDistance := 10000 }

/-- The store query `build_query` assembles for `reqAtPair` under the
shipped configuration. -/
def queryAtPair : StoreQuery :=
  { whereFilter := [("company", WVal.str "petrol"),
                    ("loc", WVal.geo geoAtPair)],
    projection := dict_of_ones (build_keys none), resultLimit := 10 }

/-- The store query `build_query` assembles for `reqEmpty` under the
shipped configuration. -/
def queryNoPoint : StoreQuery :=
  { whereFilter := [("company", WVal.str "petrol")],
    projection := dict_of_ones (build_keys none), resultLimit := 10 }

/-- A request whose `at` parameter is present but empty, with `near`
absent. -/
def reqEmptyAt : Req :=
  { prices := none, at_ := some "", near := none, limit := none,
    maxDistance := none }

/-- A request supplying only a free-text `near` address. -/
def reqNear : Req :=
  { prices := none, at_ := none, near := some "nowhere", limit := none,
    maxDistance := none }

/-- The Exception object `geocode` returns for the address `nowhere`
when the geocoder yields zero results. -/
def excNowhere : AtVal := AtVal.exc "Can't get location nowhere."

/-- The geospatial clause the pipeline assembles out of that Exception
object under the shipped configuration: the Exception value itself sits
in the coordinates slot. -/
def geoExc : GeoNear :=
  { geometryType := "Point", coordinates := excNowhere,
    maxDistance := 10000 }

/-- The store query assembled for `reqNear` when the geocoder returns
zero results, under the shipped configuration. -/
def queryNear : StoreQuery :=
  { whereFilter := [("company", WVal.str "petrol"),
                    ("loc", WVal.geo geoExc)],
    projection := dict_of_ones (build_keys none), resultLimit := 10 }

/-! Helper lemmas shared by the claim theorems. -/

/-- Inverting a successful `Except` bind. -/
theorem except_bind_ok {α β : Type} {x : Except PyErr α}
    {f : α → Except PyErr β} {b : β} (h : x >>= f = Except.ok b) :
    ∃ a, x = Except.ok a ∧ f a = Except.ok b := by
  cases x with
  | error e => exact absurd h (by simp [Bind.bind, Except.bind])
  | ok a => exact ⟨a, rfl, h⟩

/-- Every input element of a successful `mapM` run has a successful image
in the output. -/
theorem mapM_ok_mem {α β : Type} (f : α → Except PyErr β) :
    ∀ (l : List α) (out : List β), l.mapM f = Except.ok out →
      ∀ x ∈ l, ∃ y, f x = Except.ok y ∧ y ∈ out := by
  intro l
  induction l with
  | nil => intro out _ x hx; cases hx
  | cons a l ih =>
    intro out h x hx
    rw [List.mapM_cons] at h
    obtain ⟨b, hb, h2⟩ := except_bind_ok h
    obtain ⟨bs, hbs, h3⟩ := except_bind_ok h2
    have hout : out = b :: bs := by
      simpa [Pure.pure, Except.pure] using h3.symm
    subst hout
    rcases List.mem_cons.mp hx with hx' | hx'
    · exact ⟨b, hx' ▸ hb, List.mem_cons_self _ _⟩
    · obtain ⟨y, hy, hmem⟩ := ih bs hbs x hx'
      exact ⟨y, hy, List.mem_cons_of_mem _ hmem⟩

/-- Every output element of a successful `mapM` run is the successful
image of an input element. -/
theorem mapM_ok_mem_rev {α β : Type} (f : α → Except PyErr β) :
    ∀ (l : List α) (out : List β), l.mapM f = Except.ok out →
      ∀ y ∈ out, ∃ x ∈ l, f x = Except.ok y := by
  intro l
  induction l with
  | nil =>
    intro out h y hy
    rw [List.mapM_nil] at h
    have : out = [] := by simpa [Pure.pure, Except.pure] using h.symm
    subst this; cases hy
  | cons a l ih =>
    intro out h y hy
    rw [List.mapM_cons] at h
    obtain ⟨b, hb, h2⟩ := except_bind_ok h
    obtain ⟨bs, hbs, h3⟩ := except_bind_ok h2
    have hout : out = b :: bs := by
      simpa [Pure.pure, Except.pure] using h3.symm
    subst hout
    rcases List.mem_cons.mp hy with hy' | hy'
    · exact ⟨a, List.mem_cons_self _ _, hy' ▸ hb⟩
    · obtain ⟨x, hx, hfx⟩ := ih bs hbs y hy'
      exact ⟨x, List.mem_cons_of_mem _ hx, hfx⟩

/-- Updating an existing key in place leaves the key list unchanged. -/
theorem keys_map_update {β : Type} (k : String) (v : β) :
    ∀ d : List (String × β),
      (d.map (fun kv => if kv.1 == k then (kv.1, v) else kv)).map Prod.fst =
        d.map Prod.fst := by
  intro d
  induction d with
  | nil => rfl
  | cons kv rest ih =>
    simp only [List.map_cons]
    rw [ih]
    congr 1
    by_cases h : kv.1 == k
    · rw [if_pos h]
    · rw [if_neg h]

/-- Inserting under a key not yet present appends the binding. -/
theorem dict_insert_fresh {β : Type} (d : List (String × β)) (k : String)
    (v : β) (h : d.any (fun kv => kv.1 == k) = false) :
    dict_insert d k v = d ++ [(k, v)] := by
  unfold dict_insert
  rw [if_neg (by simp [h])]

/-- Key membership after a dict insertion. -/
theorem mem_keys_dict_insert {β : Type} (d : List (String × β))
    (k a : String) (v : β) :
    a ∈ (dict_insert d k v).map Prod.fst ↔ a ∈ d.map Prod.fst ∨ a = k := by
  unfold dict_insert
  by_cases h : d.any (fun kv => kv.1 == k) = true
  · rw [if_pos h, keys_map_update]
    constructor
    · exact Or.inl
    · rintro (h1 | rfl)
      · exact h1
      · obtain ⟨kv, hmem, hbeq⟩ := List.any_eq_true.mp h
        have he : kv.1 = a := by simpa using hbeq
        exact he ▸ List.mem_map_of_mem Prod.fst hmem
  · rw [if_neg h]
    simp

/-- Dict insertion preserves key-list uniqueness. -/
theorem nodup_keys_dict_insert {β : Type} (d : List (String × β))
    (k : String) (v : β) (h : (d.map Prod.fst).Nodup) :
    ((dict_insert d k v).map Prod.fst).Nodup := by
  unfold dict_insert
  by_cases hc : d.any (fun kv => kv.1 == k) = true
  · rw [if_pos hc, keys_map_update]; exact h
  · rw [if_neg hc]
    have hk : k ∉ d.map Prod.fst := by
      intro hmem
      obtain ⟨kv, hkv, he⟩ := List.mem_map.mp hmem
      have : d.any (fun kv => kv.1 == k) = true :=
        List.any_eq_true.mpr ⟨kv, hkv, by simp [he]⟩
      exact absurd this (by simpa using hc)
    rw [List.map_append]
    refine List.Nodup.append h (by simp) ?_
    intro a ha hb
    simp only [List.map_cons, List.map_nil, List.mem_singleton] at hb
    exact hk (hb ▸ ha)

/-- Key membership in the projection dict built by `dict_of_ones`. -/
theorem mem_keys_dict_of_ones (l : List String) (a : String) :
    a ∈ (dict_of_ones l).map Prod.fst ↔ a ∈ l := by
  suffices hgen : ∀ (l : List String) (acc : List (String × Int)),
      a ∈ ((l.foldl (fun acc k => dict_insert acc k 1) acc).map Prod.fst) ↔
        a ∈ acc.map Prod.fst ∨ a ∈ l by
    have := hgen l []
    simpa [dict_of_ones] using this
  intro l
  induction l with
  | nil => intro acc; simp
  | cons b rest ih =>
    intro acc
    rw [List.foldl_cons, ih, mem_keys_dict_insert]
    constructor
    · rintro ((h | rfl) | h)
      · exact Or.inl h
      · exact Or.inr (List.mem_cons_self _ _)
      · exact Or.inr (List.mem_cons_of_mem _ h)
    · rintro (h | h)
      · exact Or.inl (Or.inl h)
      · rcases List.mem_cons.mp h with rfl | h'
        · exact Or.inl (Or.inr rfl)
        · exact Or.inr h'

/-- The projection dict built by `dict_of_ones` has pairwise-distinct
keys. -/
theorem nodup_keys_dict_of_ones (l : List String) :
    ((dict_of_ones l).map Prod.fst).Nodup := by
  suffices hgen : ∀ (l : List String) (acc : List (String × Int)),
      (acc.map Prod.fst).Nodup →
      ((l.foldl (fun acc k => dict_insert acc k 1) acc).map Prod.fst).Nodup by
    exact hgen l [] (by simp)
  intro l
  induction l with
  | nil => intro acc h; simpa using h
  | cons b rest ih =>
    intro acc h
    rw [List.foldl_cons]
    exact ih _ (nodup_keys_dict_insert _ _ _ h)

/-- No projected sub-field key `prices.` + suffix collides with the bare
`prices` field name. -/
theorem prices_dot_ne_prices (x : String) : ("prices." ++ x) ≠ "prices" := by
  intro h
  have hl := congrArg String.length h
  rw [String.length_append] at hl
  rw [show "prices.".length = 7 from rfl, show "prices".length = 6 from rfl]
    at hl
  omega

/-- No projected sub-field key `prices.` + suffix collides with the
derived `distance` field name. -/
theorem prices_dot_ne_distance (x : String) :
    ("prices." ++ x) ≠ "distance" := by
  intro h
  have hd := congrArg String.data h
  rw [String.data_append] at hd
  rw [show "prices.".data = 'p' :: "rices.".data from rfl,
      show "distance".data = 'd' :: "istance".data from rfl,
      List.cons_append] at hd
  injection hd with h1 _
  exact absurd h1 (by decide)

/-- The `distance` field is never among the projected store fields, for
any `prices` request parameter. -/
theorem distance_not_mem_build_keys (p : Option String) :
    "distance" ∉ build_keys p := by
  cases p with
  | none => decide
  | some s =>
    by_cases hs : s = ""
    · subst hs; decide
    · simp only [build_keys, if_neg (by simpa using hs), ne_eq]
      rw [if_pos (by simpa using hs)]
      intro hmem
      have hmem' := List.mem_of_mem_erase hmem
      rcases List.mem_append.mp hmem' with h | h
      · revert h; decide
      · obtain ⟨t, _, he⟩ := List.mem_map.mp h
        exact prices_dot_ne_distance _ he

/-- With a non-empty `prices` parameter the bare `prices` field is removed
from the projected field list. -/
theorem prices_not_mem_build_keys (s : String) (hs : s ≠ "") :
    "prices" ∉ build_keys (some s) := by
  simp only [build_keys]
  rw [if_pos (by simpa using hs)]
  intro hmem
  have hcount := List.count_erase_self "prices"
    (["key", "loc", "address", "updated_at", "prices", "scraped_url"] ++
      (pySplit s ',').map (fun p => "prices." ++ pyReplaceChar p '_' '-'))
  rw [List.count_append] at hcount
  have hbase : List.count "prices"
      ["key", "loc", "address", "updated_at", "prices", "scraped_url"] = 1 :=
    by decide
  have hdot : List.count "prices"
      ((pySplit s ',').map (fun p => "prices." ++ pyReplaceChar p '_' '-')) = 0 := by
    rw [List.count_eq_zero]
    intro hmem2
    obtain ⟨t, _, he⟩ := List.mem_map.mp hmem2
    exact prices_dot_ne_prices _ he
  rw [hbase, hdot] at hcount
  have := List.count_pos_iff.mpr hmem
  omega

/-- Each requested token's projected sub-field key is among the projected
field list. -/
theorem prices_dot_mem_build_keys (s t : String) (hs : s ≠ "")
    (ht : t ∈ pySplit s ',') :
    ("prices." ++ pyReplaceChar t '_' '-') ∈ build_keys (some s) := by
  simp only [build_keys]
  rw [if_pos (by simpa using hs)]
  rw [List.mem_erase_of_ne (prices_dot_ne_prices _)]
  exact List.mem_append_right _ (List.mem_map_of_mem _ ht)

/-- A dict comprehension over entries whose rewritten keys are pairwise
distinct is a plain map (no entry is overwritten). -/
theorem unslugify_dict_of_nodup (dic : List (String × Value))
    (hnd : (dic.map (fun kv => pyReplaceChar kv.1 '-' '_')).Nodup) :
    unslugify_dict dic =
      dic.map (fun kv => (pyReplaceChar kv.1 '-' '_', kv.2)) := by
  suffices hgen : ∀ (l acc : List (String × Value)),
      (l.map (fun kv => pyReplaceChar kv.1 '-' '_')).Nodup →
      (∀ kv ∈ l, ∀ kv2 ∈ acc, kv2.1 ≠ pyReplaceChar kv.1 '-' '_') →
      l.foldl (fun acc kv => dict_insert acc (pyReplaceChar kv.1 '-' '_') kv.2)
          acc =
        acc ++ l.map (fun kv => (pyReplaceChar kv.1 '-' '_', kv.2)) by
    simpa [unslugify_dict] using hgen dic [] hnd (by simp)
  intro l
  induction l with
  | nil => intro acc _ _; simp
  | cons kv rest ih =>
    intro acc hnd2 hfresh
    rw [List.map_cons] at hnd2
    obtain ⟨hhd, htl⟩ := List.nodup_cons.mp hnd2
    rw [List.foldl_cons]
    have hins : dict_insert acc (pyReplaceChar kv.1 '-' '_') kv.2 =
        acc ++ [(pyReplaceChar kv.1 '-' '_', kv.2)] := by
      apply dict_insert_fresh
      rw [List.any_eq_false]
      intro kv2 hkv2
      simp only [beq_iff_eq]
      exact hfresh kv (List.mem_cons_self _ _) kv2 hkv2
    rw [hins, ih (acc ++ [(pyReplaceChar kv.1 '-' '_', kv.2)])]
    · simp
    · exact htl
    · intro kv' hkv' kv2 hkv2
      rcases List.mem_append.mp hkv2 with h | h
      · exact hfresh kv' (List.mem_cons_of_mem _ hkv') kv2 h
      · have h2 : kv2 = (pyReplaceChar kv.1 '-' '_', kv.2) :=
          List.mem_singleton.mp h
        subst h2
        intro he
        apply hhd
        have he' : pyReplaceChar kv.1 '-' '_' = pyReplaceChar kv'.1 '-' '_' := he
        rw [he']
        exact List.mem_map_of_mem _ hkv'

/-- Looking up a key just inserted into a dict that did not contain it. -/
theorem dict_lookup_insert_of_miss {β : Type} (d : List (String × β))
    (k : String) (v : β) (h : dict_lookup d k = none) :
    dict_lookup (dict_insert d k v) k = some v := by
  have hfind : d.find? (fun kv => kv.1 == k) = none := by
    unfold dict_lookup at h
    exact Option.map_eq_none'.mp h
  have hany : d.any (fun kv => kv.1 == k) = false := by
    rw [List.any_eq_false]
    intro kv hkv
    exact List.find?_eq_none.mp hfind kv hkv
  rw [dict_insert_fresh d k v hany]
  unfold dict_lookup
  rw [List.find?_append, hfind]
  simp [List.find?]

/-- Inversion of a successful `build_query` run: recovers the parsed `at`
coordinates, the resolved reference value, the projected field list, the
clamped limit and the exact shape of the filter. -/
theorem build_query_ok {cfg : Config} {geocoder : String → List (ℚ × ℚ)}
    {cache0 : Cache} {req : Req} {q : StoreQuery} {at2 : AtVal}
    {keys : List String}
    (h : build_query cfg geocoder cache0 req = Except.ok (q, at2, keys)) :
    ∃ at0 lim,
      (((pySplit (req.at_.getD "") ',').filter (fun n => n ≠ "")).mapM
          parseFloat = Except.ok at0) ∧
      at2 = (match req.near with
        | some s =>
          if s ≠ "" then (geocode geocoder cache0 s true 86400).result
          else AtVal.list at0
        | none => AtVal.list at0) ∧
      keys = build_keys req.prices ∧
      safe_limit req.limit cfg.LIST_LIMIT cfg.LIST_DEFAULT_COUNT =
        Except.ok lim ∧
      q.projection = dict_of_ones keys ∧
      q.resultLimit = lim ∧
      ((truthy at2 = false ∧
          q.whereFilter = [("company", WVal.str "petrol")]) ∨
       (truthy at2 = true ∧ ∃ maxD,
          safe_distance cfg req = Except.ok maxD ∧
          q.whereFilter = [("company", WVal.str "petrol"),
            ("loc", WVal.geo
              { geometryType := "Point", coordinates := at2,
                maxDistance := maxD })])) := by
  unfold build_query at h
  split at h
  · exact absurd h (by simp)
  · rename_i at0 hmap
    dsimp only [] at h
    split at h
    · exact absurd h (by simp)
    · rename_i wf hwf
      split at h
      · exact absurd h (by simp)
      · rename_i lim hlim
        simp only [Except.ok.injEq, Prod.mk.injEq] at h
        obtain ⟨hq, hat2, hkeys⟩ := h
        refine ⟨at0, lim, hmap, hat2.symm, hkeys.symm, hlim, ?_, ?_, ?_⟩
        · rw [← hq, ← hkeys]
        · rw [← hq]
        · rw [hat2] at hwf
          by_cases ht : truthy at2 = true
          · right
            refine ⟨ht, ?_⟩
            rw [if_pos ht] at hwf
            split at hwf
            · exact absurd hwf (by simp)
            · rename_i maxD hmaxD
              simp only [Except.ok.injEq] at hwf
              refine ⟨maxD, hmaxD, ?_⟩
              rw [← hq, hwf]
          · have ht' : truthy at2 = false := by simpa using ht
            left
            refine ⟨ht', ?_⟩
            rw [if_neg ht] at hwf
            simp only [Except.ok.injEq] at hwf
            rw [← hq, hwf]

/-! Claim theorems. -/

/-- C5 counterexample: the claim says that when the caller supplies no
value the clamp returns the configured default, but `safe_limit` also
clamps the default: with ceiling 50 and default 100 the absent-parameter
result is 50, not the default 100. -/
theorem C5_counterexample :
    safe_limit none 50 100 = Except.ok (50 : Int) ∧
      safe_limit none 50 100 ≠ Except.ok (100 : Int) := by
  constructor
  · rfl
  · decide

/-- C5 (amended): when the caller supplies no value the clamp returns
min(defaultValue, hardCeiling) — which equals the configured default
whenever the default does not exceed the ceiling, as in the shipped
configuration; when the caller supplies an integer value it returns
min(requestedValue, hardCeiling); and every successful result is at most
the ceiling. -/
theorem C5_clamp_contract :
    (∀ ceiling dflt : Int,
        safe_limit none ceiling dflt = Except.ok (min dflt ceiling)) ∧
    (∀ (s : String) (v ceiling dflt : Int), parseInt s = Except.ok v →
        safe_limit (some s) ceiling dflt = Except.ok (min v ceiling)) ∧
    (∀ (p : Option String) (ceiling dflt r : Int),
        safe_limit p ceiling dflt = Except.ok r → r ≤ ceiling) := by
  refine ⟨?_, ?_, ?_⟩
  · intro ceiling dflt
    show Except.ok (if dflt < ceiling then dflt else ceiling) =
      Except.ok (min dflt ceiling)
    refine congrArg Except.ok ?_
    rw [min_def]
    split <;> split <;> omega
  · intro s v ceiling dflt hp
    unfold safe_limit
    dsimp only []
    rw [hp]
    refine congrArg Except.ok ?_
    rw [min_def]
    split <;> split <;> omega
  · intro p ceiling dflt r h
    cases p with
    | none =>
      have hr : (if dflt < ceiling then dflt else ceiling) = r := by
        injection h
      split at hr <;> omega
    | some s =>
      unfold safe_limit at h
      dsimp only [] at h
      cases hp : parseInt s with
      | error e => rw [hp] at h; exact absurd h (by simp)
      | ok v =>
        rw [hp] at h
        have hr : (if v < ceiling then v else ceiling) = r := by
          injection h
        split at hr <;> omega

/-- Witness for C5_clamp_contract at concrete inputs. -/
theorem C5_clamp_contract_witness :
    safe_limit none 50 10 = Except.ok (min 10 50) ∧
    safe_limit (some "70") 50 10 = Except.ok (min 70 50) ∧
    (7 : Int) ≤ 50 :=
  ⟨C5_clamp_contract.1 50 10,
   C5_clamp_contract.2.1 "70" 70 50 10 (by decide),
   C5_clamp_contract.2.2 (some "7") 50 10 7 (by decide)⟩

/-- C10: the clamp enforces only an upper bound — any supplied integer
strictly below the ceiling, zero and negative values included, is
returned unchanged — and the clamped values are exactly what the
pipeline passes to the store as the result-count limit and as the
geospatial maxDistance radius. -/
theorem C10_no_lower_bound :
    (∀ (s : String) (v ceiling dflt : Int), parseInt s = Except.ok v →
        v < ceiling → safe_limit (some s) ceiling dflt = Except.ok v) ∧
    (∀ (cfg : Config) (geocoder : String → List (ℚ × ℚ)) (cache0 : Cache)
        (req : Req) (q : StoreQuery) (at2 : AtVal) (keys : List String),
        build_query cfg geocoder cache0 req = Except.ok (q, at2, keys) →
        safe_limit req.limit cfg.LIST_LIMIT cfg.LIST_DEFAULT_COUNT =
          Except.ok q.resultLimit) ∧
    (∀ (cfg : Config) (geocoder : String → List (ℚ × ℚ)) (cache0 : Cache)
        (req : Req) (q : StoreQuery) (at2 : AtVal) (keys : List String)
        (g : GeoNear),
        build_query cfg geocoder cache0 req = Except.ok (q, at2, keys) →
        ("loc", WVal.geo g) ∈ q.whereFilter →
        safe_distance cfg req = Except.ok g.maxDistance) := by
  refine ⟨?_, ?_, ?_⟩
  · intro s v ceiling dflt hp hv
    unfold safe_limit
    dsimp only []
    rw [hp]
    dsimp only []
    rw [if_pos hv]
  · intro cfg geocoder cache0 req q at2 keys h
    obtain ⟨at0, lim, _, _, _, hlim, _, hrl, _⟩ := build_query_ok h
    rw [← hrl] at hlim
    exact hlim
  · intro cfg geocoder cache0 req q at2 keys g h hmem
    obtain ⟨at0, lim, _, _, _, _, _, _, hw⟩ := build_query_ok h
    rcases hw with ⟨_, hwf⟩ | ⟨_, maxD, hmd, hwf⟩
    · rw [hwf] at hmem
      have hpair := List.mem_singleton.mp hmem
      have hfst : "loc" = "company" := congrArg Prod.fst hpair
      exact absurd hfst (by decide)
    · rw [hwf] at hmem
      rcases List.mem_cons.mp hmem with hpair | hmem2
      · have hfst : "loc" = "company" := congrArg Prod.fst hpair
        exact absurd hfst (by decide)
      · have hpair := List.mem_singleton.mp hmem2
        rw [Prod.mk.injEq] at hpair
        obtain ⟨-, hsnd⟩ := hpair
        injection hsnd with h2
        rw [h2]
        exact hmd

/-- Witness for C10_no_lower_bound at concrete inputs, including a
negative supplied limit that is passed through unchanged. -/
theorem C10_no_lower_bound_witness :
    safe_limit (some "-5") 50 10 = Except.ok (-5) ∧
    safe_limit reqEmpty.limit cfg0.LIST_LIMIT cfg0.LIST_DEFAULT_COUNT =
      Except.ok queryNoPoint.resultLimit ∧
    safe_distance cfg0 reqAtPair = Except.ok geoAtPair.maxDistance :=
  ⟨C10_no_lower_bound.1 "-5" (-5) 50 10 (by decide) (by decide),
   C10_no_lower_bound.2.1 cfg0 geocoderEmpty [] reqEmpty queryNoPoint
     (AtVal.list []) (build_keys none) rfl,
   C10_no_lower_bound.2.2 cfg0 geocoderEmpty [] reqAtPair queryAtPair
     (AtVal.list [((2 : ℕ) : ℚ), ((3 : ℕ) : ℚ)]) (build_keys none)
     geoAtPair rfl (by simp [queryAtPair])⟩

/-- C3 counterexample: the base filter the code sends for a
parameterless request is keyed `company`, not `category` as the claim
states. -/
theorem C3_counterexample :
    build_query cfg0 geocoderEmpty [] reqEmpty =
      Except.ok (queryNoPoint, AtVal.list [], build_keys none) ∧
    queryNoPoint.whereFilter ≠ [("category", WVal.str "petrol")] := by
  exact ⟨rfl, by decide⟩

/-- C3 (amended): for every request the filter sent to the store starts
with the fixed, client-independent base binding of the field `company`
(not `category`) to the value `petrol`, followed at most by the
geospatial clause; no `category` binding is ever sent. -/
theorem C3_base_filter_company_fixed :
    ∀ (cfg : Config) (geocoder : String → List (ℚ × ℚ)) (cache0 : Cache)
      (req : Req) (q : StoreQuery) (at2 : AtVal) (keys : List String),
      build_query cfg geocoder cache0 req = Except.ok (q, at2, keys) →
      ∃ rest, q.whereFilter = ("company", WVal.str "petrol") :: rest ∧
        (rest = [] ∨ ∃ g, rest = [("loc", WVal.geo g)]) ∧
        ∀ w, ("category", w) ∉ q.whereFilter := by
  intro cfg geocoder cache0 req q at2 keys h
  obtain ⟨at0, lim, _, _, _, _, _, _, hw⟩ := build_query_ok h
  rcases hw with ⟨_, hwf⟩ | ⟨_, maxD, _, hwf⟩
  · refine ⟨[], by rw [hwf], Or.inl rfl, ?_⟩
    intro w hmem
    rw [hwf] at hmem
    have hfst : "category" = "company" :=
      congrArg Prod.fst (List.mem_singleton.mp hmem)
    exact absurd hfst (by decide)
  · refine ⟨[("loc", WVal.geo { geometryType := "Point",
                                coordinates := at2,
                                maxDistance := maxD })],
      by rw [hwf], Or.inr ⟨_, rfl⟩, ?_⟩
    intro w hmem
    rw [hwf] at hmem
    rcases List.mem_cons.mp hmem with hpair | hmem2
    · have hfst : "category" = "company" := congrArg Prod.fst hpair
      exact absurd hfst (by decide)
    · have hfst : "category" = "loc" :=
        congrArg Prod.fst (List.mem_singleton.mp hmem2)
      exact absurd hfst (by decide)

/-- Witness for C3_base_filter_company_fixed at a concrete request. -/
theorem C3_base_filter_company_fixed_witness :
    ∃ rest, queryNoPoint.whereFilter =
        ("company", WVal.str "petrol") :: rest ∧
      (rest = [] ∨ ∃ g, rest = [("loc", WVal.geo g)]) ∧
      ∀ w, ("category", w) ∉ queryNoPoint.whereFilter :=
  C3_base_filter_company_fixed cfg0 geocoderEmpty [] reqEmpty queryNoPoint
    (AtVal.list []) (build_keys none) rfl

/-- C8 counterexample: two distinct keys of a prices mapping can collide
after the hyphen-to-underscore rewrite, in which case the dict
comprehension keeps only the later entry and the emitted array has fewer
elements than the mapping — refuting the claim's exactly-one-element-per-
entry guarantee over all mappings. -/
theorem C8_counterexample :
    enrich_prices [("a-b", Value.num 1), ("a_b", Value.num 2)] =
      [Value.obj [("type", Value.str "a_b"), ("price", Value.num 2)]] ∧
    (enrich_prices [("a-b", Value.num 1), ("a_b", Value.num 2)]).length ≠
      [("a-b", Value.num 1), ("a_b", Value.num 2)].length := by
  constructor
  · rfl
  · decide

/-- C8 (amended): price enrichment rewrites every key's hyphens to
underscores and emits one type/price object per mapping entry whenever
the rewritten keys remain pairwise distinct — in particular for every
mapping whose keys use only hyphens; when two keys collide after the
rewrite the later entry wins. The concrete round-trip of the mapping
super-95 to 1.50 holds as claimed. -/
theorem C8_price_enrichment :
    (∀ dic : List (String × Value),
        (dic.map (fun kv => pyReplaceChar kv.1 '-' '_')).Nodup →
        enrich_prices dic = dic.map (fun kv =>
          Value.obj [("type", Value.str (pyReplaceChar kv.1 '-' '_')),
                     ("price", kv.2)])) ∧
    enrich_prices [("super-95", Value.num (3/2))] =
      [Value.obj [("type", Value.str "super_95"),
                  ("price", Value.num (3/2))]] := by
  constructor
  · intro dic hnd
    unfold enrich_prices
    rw [unslugify_dict_of_nodup dic hnd, List.map_map]
    rfl
  · rfl

/-- Witness for C8_price_enrichment on a concrete mapping. -/
theorem C8_price_enrichment_witness :
    enrich_prices [("diesel", Value.num 1)] =
      [("diesel", Value.num 1)].map (fun kv =>
        Value.obj [("type", Value.str (pyReplaceChar kv.1 '-' '_')),
                   ("price", kv.2)]) :=
  C8_price_enrichment.1 [("diesel", Value.num 1)] (by decide)

/-- C2 counterexample: a raw store record carrying a literal
`prices.`-path key — here `prices.diesel` with the `prices` projection
parameter requested — is passed through verbatim by `simple_station`,
so the projected response record does contain a raw `prices.*` key: it
is neither consumed into the synthesized prices array nor dropped. -/
theorem C2_counterexample :
    simple_station [("prices." ++ "diesel", Value.num (3/2))]
        (some (build_keys (some "diesel") ++ ["prices", "distance"]))
        (some (station_mapping isofmtId)) =
      Except.ok [("prices." ++ "diesel", Value.num (3/2))] := by
  rfl

/-- C2 (amended): the projection step passes dotted keys through rather
than consuming or dropping them — whenever `simple_station` succeeds,
every entry of the raw record whose key contains a dot and has no
transform registered for that exact key appears unchanged in the output
record, regardless of the included-keys set. -/
theorem C2_dot_keys_pass_through :
    ∀ (station : Record) (included_keys : Option (List String))
      (mapping : Option (List (String × MapEntry))) (out : Record)
      (k : String) (v : Value),
      simple_station station included_keys mapping = Except.ok out →
      (k, v) ∈ station → pyContains k '.' = true →
      dict_lookup (mapping.getD []) k = none →
      (k, v) ∈ out := by
  intro station incl mapping out k v hok hmem hdot hmap
  unfold simple_station at hok
  have hfil : (k, v) ∈ station.filter
      (fun kv => pyContains kv.1 '.' || (incl.getD []).contains kv.1) := by
    rw [List.mem_filter]
    exact ⟨hmem, by simp [hdot]⟩
  obtain ⟨y, hy, hymem⟩ := mapM_ok_mem _ _ _ hok (k, v) hfil
  have hy2 : (Except.ok (k, v) : Except PyErr (String × Value)) =
      Except.ok y := by
    rw [← hy]
    dsimp only []
    unfold result_of
    rw [hmap]
    rfl
  injection hy2 with h2
  exact h2 ▸ hymem

/-- Witness for C2_dot_keys_pass_through on a concrete record. -/
theorem C2_dot_keys_pass_through_witness :
    ("loc.type", Value.str "Point") ∈
      ([("loc.type", Value.str "Point")] : Record) :=
  C2_dot_keys_pass_through [("loc.type", Value.str "Point")] (some [])
    (some []) [("loc.type", Value.str "Point")] "loc.type"
    (Value.str "Point") rfl (List.mem_singleton.mpr rfl) rfl rfl

/-- C7: for every non-empty `prices` parameter, the store projection
contains exactly one `prices.` + token (underscores rewritten to
hyphens) entry per requested token and no bare `prices` entry; and the
post-processing of any returned record that carries a `prices` mapping
(the store returns projected leaf fields nested under their parent, so
the requested leaves come back inside `prices`) still yields a
synthesized prices array built from those leaf fields. -/
theorem C7_prices_projection :
    (∀ s : String, s ≠ "" →
      "prices" ∉ (dict_of_ones (build_keys (some s))).map Prod.fst ∧
      ∀ t ∈ pySplit s ',',
        ((dict_of_ones (build_keys (some s))).map Prod.fst).count
          ("prices." ++ pyReplaceChar t '_' '-') = 1) ∧
    (∀ (s : String) (rec out : Record)
        (isofmt : Value → Except PyErr Value) (pm : List (String × Value)),
        ("prices", Value.obj pm) ∈ rec →
        simple_station rec
          (some (build_keys (some s) ++ ["prices", "distance"]))
          (some (station_mapping isofmt)) = Except.ok out →
        ("prices", Value.arr (enrich_prices pm)) ∈ out) := by
  constructor
  · intro s hs
    constructor
    · intro hmem
      exact prices_not_mem_build_keys s hs
        ((mem_keys_dict_of_ones _ _).mp hmem)
    · intro t ht
      exact List.count_eq_one_of_mem (nodup_keys_dict_of_ones _)
        ((mem_keys_dict_of_ones _ _).mpr (prices_dot_mem_build_keys s t hs ht))
  · intro s rec out isofmt pm hmem hok
    unfold simple_station at hok
    have hfil : ("prices", Value.obj pm) ∈ rec.filter
        (fun kv => pyContains kv.1 '.' ||
          (build_keys (some s) ++ ["prices", "distance"]).contains kv.1) := by
      rw [List.mem_filter]
      refine ⟨hmem, ?_⟩
      have hin : "prices" ∈ build_keys (some s) ++ ["prices", "distance"] := by
        simp
      simp [hin]
    obtain ⟨y, hy, hymem⟩ := mapM_ok_mem _ _ _ hok _ hfil
    have hy2 : (Except.ok ("prices", Value.arr (enrich_prices pm)) :
        Except PyErr (String × Value)) = Except.ok y := by
      rw [← hy]
      rfl
    injection hy2 with h2
    exact h2 ▸ hymem

/-- Witness for C7_prices_projection on the concrete parameter
`diesel,super-95` and a concrete returned record. -/
theorem C7_prices_projection_witness :
    ("prices" ∉
        (dict_of_ones (build_keys (some "diesel,super-95"))).map Prod.fst ∧
      ∀ t ∈ pySplit "diesel,super-95" ',',
        ((dict_of_ones (build_keys (some "diesel,super-95"))).map
            Prod.fst).count ("prices." ++ pyReplaceChar t '_' '-') = 1) ∧
    ("prices", Value.arr (enrich_prices [("diesel", Value.num 1)])) ∈
      ([("prices", Value.arr (enrich_prices [("diesel", Value.num 1)]))] :
        Record) :=
  ⟨C7_prices_projection.1 "diesel,super-95" (by decide),
   C7_prices_projection.2 "diesel,super-95"
     [("prices", Value.obj [("diesel", Value.num 1)])]
     [("prices", Value.arr (enrich_prices [("diesel", Value.num 1)]))]
     isofmtId [("diesel", Value.num 1)] (List.mem_singleton.mpr rfl) rfl⟩

/-- C6: cache-aside geocoding with caching enabled. A first call on a
cache miss for an address the geocoder resolves performs exactly one
geocoder call and exactly one cache write, storing the serialised
lng/lat pair of the first result under the address key with the
configured TTL, and performs no TTL refresh; a second call against the
resulting cache performs zero geocoder calls and zero cache writes,
re-applies the full configured TTL to the entry, and returns the decoded
cached lng/lat pair. -/
theorem C6_cache_aside :
    ∀ (geocoder : String → List (ℚ × ℚ)) (addr : String) (lng lat : ℚ)
      (rest : List (ℚ × ℚ)) (cache0 : Cache) (ttl : Nat),
      geocoder addr = (lng, lat) :: rest →
      dict_lookup cache0 (geocode_key addr) = none →
      (geocoderCalls (geocode geocoder cache0 addr true ttl).ops = [addr] ∧
       cacheWrites (geocode geocoder cache0 addr true ttl).ops =
         [(geocode_key addr, dumps [lng, lat], ttl)] ∧
       cacheRefreshes (geocode geocoder cache0 addr true ttl).ops = [] ∧
       (geocode geocoder cache0 addr true ttl).result =
         AtVal.list [lng, lat]) ∧
      (geocoderCalls (geocode geocoder
          (geocode geocoder cache0 addr true ttl).cache addr true ttl).ops =
         [] ∧
       cacheWrites (geocode geocoder
          (geocode geocoder cache0 addr true ttl).cache addr true ttl).ops =
         [] ∧
       cacheRefreshes (geocode geocoder
          (geocode geocoder cache0 addr true ttl).cache addr true ttl).ops =
         [(geocode_key addr, ttl)] ∧
       (geocode geocoder
          (geocode geocoder cache0 addr true ttl).cache addr true ttl).result
         = AtVal.list [lng, lat]) := by
  intro geocoder addr lng lat rest cache0 ttl hres hmiss
  have h1 : geocode geocoder cache0 addr true ttl =
      { result := AtVal.list [lng, lat],
        cache := dict_insert cache0 (geocode_key addr) (dumps [lng, lat]),
        ops := [Op.cacheGet (geocode_key addr), Op.geocoderCall addr,
                Op.cacheSet (geocode_key addr) (dumps [lng, lat]) ttl] } := by
    unfold geocode
    dsimp only []
    rw [hmiss]
    dsimp only []
    rw [hres]
    rfl
  have hlook := dict_lookup_insert_of_miss cache0 (geocode_key addr)
    (dumps [lng, lat]) hmiss
  have h2 : geocode geocoder
      (dict_insert cache0 (geocode_key addr) (dumps [lng, lat]))
      addr true ttl =
      { result := AtVal.list [lng, lat],
        cache := dict_insert cache0 (geocode_key addr) (dumps [lng, lat]),
        ops := [Op.cacheGet (geocode_key addr),
                Op.cacheExpire (geocode_key addr) ttl] } := by
    unfold geocode
    dsimp only []
    rw [hlook]
    rfl
  rw [h1]
  dsimp only []
  rw [h2]
  exact ⟨⟨rfl, rfl, rfl, rfl⟩, rfl, rfl, rfl, rfl⟩

/-- Witness for C6_cache_aside on a concrete geocoder, address and
empty cache. -/
theorem C6_cache_aside_witness :
    (geocoderCalls
        (geocode geocoderOne [] "1600 Amphitheatre Pkwy" true 86400).ops =
       ["1600 Amphitheatre Pkwy"] ∧
     cacheWrites
        (geocode geocoderOne [] "1600 Amphitheatre Pkwy" true 86400).ops =
       [(geocode_key "1600 Amphitheatre Pkwy", dumps [4, 52], 86400)] ∧
     cacheRefreshes
        (geocode geocoderOne [] "1600 Amphitheatre Pkwy" true 86400).ops =
       [] ∧
     (geocode geocoderOne [] "1600 Amphitheatre Pkwy" true 86400).result =
       AtVal.list [4, 52]) ∧
    (geocoderCalls (geocode geocoderOne
        (geocode geocoderOne [] "1600 Amphitheatre Pkwy" true 86400).cache
        "1600 Amphitheatre Pkwy" true 86400).ops = [] ∧
     cacheWrites (geocode geocoderOne
        (geocode geocoderOne [] "1600 Amphitheatre Pkwy" true 86400).cache
        "1600 Amphitheatre Pkwy" true 86400).ops = [] ∧
     cacheRefreshes (geocode geocoderOne
        (geocode geocoderOne [] "1600 Amphitheatre Pkwy" true 86400).cache
        "1600 Amphitheatre Pkwy" true 86400).ops =
       [(geocode_key "1600 Amphitheatre Pkwy", 86400)] ∧
     (geocode geocoderOne
        (geocode geocoderOne [] "1600 Amphitheatre Pkwy" true 86400).cache
        "1600 Amphitheatre Pkwy" true 86400).result = AtVal.list [4, 52]) :=
  C6_cache_aside geocoderOne "1600 Amphitheatre Pkwy" 4 52 [] [] 86400
    rfl rfl

/-- A key of a successful `simple_station` output is always a key of the
raw input record. -/
theorem simple_station_keys {station : Record} {incl : Option (List String)}
    {m : Option (List (String × MapEntry))} {out : Record}
    (h : simple_station station incl m = Except.ok out) :
    ∀ kv ∈ out, ∃ v0, (kv.1, v0) ∈ station := by
  intro kv hkv
  unfold simple_station at h
  obtain ⟨x, hx, hfx⟩ := mapM_ok_mem_rev _ _ _ h kv hkv
  have hxmem := (List.mem_filter.mp hx).1
  cases hres : result_of (m.getD []) x.1 x.2 with
  | error e =>
    rw [hres] at hfx
    exact absurd hfx (by simp [Except.map])
  | ok v' =>
    rw [hres] at hfx
    have heq : (x.1, v') = kv := by
      simpa [Except.map] using hfx
    have hk1 : kv.1 = x.1 := by rw [← heq]
    refine ⟨x.2, ?_⟩
    rw [hk1]
    exact hxmem

/-- C9: for a request whose `near` parameter is absent and whose `at`
parameter is the empty string, no reference point is resolved: the `at`
parsing yields the empty coordinate list without error, the executed
store query carries no geospatial clause, the endpoint returns the
status-ok response (provided the limit parameter parses and the
per-record shaping succeeds), and no returned record carries a
`distance` field (given the store capability's contract of returning
only projected fields plus `_id`). -/
theorem C9_empty_at_no_reference_point :
    ∀ (cfg : Config) (geocoder : String → List (ℚ × ℚ)) (cache0 : Cache)
      (store : List (String × WVal) → List (String × Int) → Int →
        List Record)
      (hav : List ℚ → List ℚ → ℚ) (isofmt : Value → Except PyErr Value)
      (req : Req) (lim : Int) (q : StoreQuery) (stations : List Record),
      req.near = none → req.at_ = some "" →
      safe_limit req.limit cfg.LIST_LIMIT cfg.LIST_DEFAULT_COUNT =
        Except.ok lim →
      q = { whereFilter := [("company", WVal.str "petrol")],
            projection := dict_of_ones (build_keys req.prices),
            resultLimit := lim } →
      (store q.whereFilter q.projection q.resultLimit).mapM
          (fun s => simple_station s
            (some (build_keys req.prices ++ ["prices", "distance"]))
            (some (station_mapping isofmt))) = Except.ok stations →
      (∀ rec ∈ store q.whereFilter q.projection q.resultLimit, ∀ kv ∈ rec,
        kv.1 ∈ q.projection.map Prod.fst ∨ kv.1 = "_id") →
      build_query cfg geocoder cache0 req =
        Except.ok (q, AtVal.list [], build_keys req.prices) ∧
      list_stations cfg geocoder cache0 store hav isofmt req =
        Except.ok { status := "ok", stations := stations } ∧
      (∀ st ∈ stations, ∀ kv ∈ st, kv.1 ≠ "distance") := by
  intro cfg geocoder cache0 store hav isofmt req lim q stations
    hnear hat hlim hq hproj hshape
  have hbq : build_query cfg geocoder cache0 req =
      Except.ok (q, AtVal.list [], build_keys req.prices) := by
    unfold build_query
    rw [hat, hnear,
        show ((some "").getD "" : String) = "" from rfl,
        show ((pySplit "" ',').filter (fun n => n ≠ "")).mapM parseFloat =
          Except.ok ([] : List ℚ) from rfl]
    dsimp only []
    rw [show truthy (AtVal.list []) = false from rfl]
    rw [if_neg (by decide)]
    dsimp only []
    rw [hlim]
    rw [hq]
  refine ⟨hbq, ?_, ?_⟩
  · unfold list_stations
    rw [hbq]
    dsimp only []
    rw [hproj]
    dsimp only []
    rw [show truthy (AtVal.list []) = false from rfl]
  · intro st hst kv hkv
    obtain ⟨rec, hrec, hss⟩ := mapM_ok_mem_rev _ _ _ hproj st hst
    obtain ⟨v0, hv0⟩ := simple_station_keys hss kv hkv
    rcases hshape rec hrec (kv.1, v0) hv0 with hmem | hid
    · intro hd
      rw [hd] at hmem
      rw [hq] at hmem
      exact distance_not_mem_build_keys req.prices
        ((mem_keys_dict_of_ones _ _).mp hmem)
    · intro hd
      rw [hd] at hid
      exact absurd hid (by decide)

/-- Witness for C9_empty_at_no_reference_point on a concrete request and
one-record store. -/
theorem C9_empty_at_no_reference_point_witness :
    build_query cfg0 geocoderEmpty [] reqEmptyAt =
      Except.ok (queryNoPoint, AtVal.list [], build_keys none) ∧
    list_stations cfg0 geocoderEmpty [] storeOne havZero isofmtId
        reqEmptyAt =
      Except.ok { status := "ok",
                  stations := [[("key", Value.str "s1")]] } ∧
    (∀ st ∈ ([[("key", Value.str "s1")]] : List Record), ∀ kv ∈ st,
      kv.1 ≠ "distance") :=
  C9_empty_at_no_reference_point cfg0 geocoderEmpty [] storeOne havZero
    isofmtId reqEmptyAt 10 queryNoPoint [[("key", Value.str "s1")]]
    rfl rfl rfl rfl rfl (by decide)

/-- C1 evidence of the code bug: when the geocoder capability returns
zero results, `geocode` returns (rather than raises) an Exception
object; that object is truthy, so `list_stations` builds a geospatial
clause whose coordinates slot holds the Exception object and proceeds.
With a store that yields no records the caller receives a status-ok
response with an empty station list, and with a store that yields a
record the pipeline fails with an unrelated KeyError — in no case is a
GeocodeNotFound condition surfaced. -/
theorem C1_geocode_miss_not_an_error :
    (geocode geocoderEmpty [] "nowhere" true 86400).result = excNowhere ∧
    truthy excNowhere = true ∧
    build_query cfg0 geocoderEmpty [] reqNear =
      Except.ok (queryNear, excNowhere, build_keys none) ∧
    list_stations cfg0 geocoderEmpty [] storeEmpty havZero isofmtId
        reqNear = Except.ok { status := "ok", stations := [] } ∧
    list_stations cfg0 geocoderEmpty [] storeOne havZero isofmtId
        reqNear = Except.error PyErr.keyError :=
  ⟨rfl, rfl, rfl, rfl, rfl⟩

/-- C4 evidence of the code bug: `compute_distance` feeds the stored
GeoJSON `(longitude, latitude)` tuples to the haversine library, which
interprets each tuple as `(latitude, longitude)`. The value the code
computes therefore equals the haversine formula applied to the
transposed points, and at the concrete pair of points lng 0 lat 60 and
lng 90 lat 60 it differs from the standard haversine distance between
the points themselves — far beyond any floating-point tolerance. -/
theorem C4_distance_uses_transposed_coordinates :
    compute_distance_value (0, 60) (90, 60) ≠
      distanceMeters_spec (0, 60) (90, 60) := by
  have h1 : haversineKm 0 60 90 60 =
      2 * EARTH_RADIUS_KM * Real.arcsin (Real.sqrt (1 / 2)) := by
    unfold haversineKm
    congr 1
    congr 1
    rw [show ((90 : ℝ) * Real.pi / 180 - 0 * Real.pi / 180) / 2 =
          Real.pi / 4 from by ring,
        show ((0 : ℝ) * Real.pi / 180) = 0 from by ring,
        show ((90 : ℝ) * Real.pi / 180) = Real.pi / 2 from by ring,
        show ((60 : ℝ) * Real.pi / 180 - 60 * Real.pi / 180) / 2 =
          (0 : ℝ) from by ring]
    rw [Real.sin_pi_div_four, Real.cos_zero, Real.cos_pi_div_two,
        Real.sin_zero]
    rw [div_pow, Real.sq_sqrt (by norm_num : (0 : ℝ) ≤ 2)]
    norm_num
  have h2 : haversineKm 60 0 60 90 =
      2 * EARTH_RADIUS_KM * Real.arcsin (Real.sqrt (1 / 8)) := by
    unfold haversineKm
    congr 1
    congr 1
    rw [show ((60 : ℝ) * Real.pi / 180 - 60 * Real.pi / 180) / 2 =
          (0 : ℝ) from by ring,
        show ((60 : ℝ) * Real.pi / 180) = Real.pi / 3 from by ring,
        show ((90 : ℝ) * Real.pi / 180 - 0 * Real.pi / 180) / 2 =
          Real.pi / 4 from by ring]
    rw [Real.sin_zero, Real.cos_pi_div_three, Real.sin_pi_div_four]
    rw [div_pow, Real.sq_sqrt (by norm_num : (0 : ℝ) ≤ 2)]
    norm_num
  have harc : Real.arcsin (Real.sqrt (1 / 8)) <
      Real.arcsin (Real.sqrt (1 / 2)) := by
    apply Real.strictMonoOn_arcsin
    · exact ⟨le_trans (by norm_num) (Real.sqrt_nonneg _),
        Real.sqrt_le_one.mpr (by norm_num)⟩
    · exact ⟨le_trans (by norm_num) (Real.sqrt_nonneg _),
        Real.sqrt_le_one.mpr (by norm_num)⟩
    · exact Real.sqrt_lt_sqrt (by norm_num) (by norm_num)
  intro heq
  unfold compute_distance_value haversine_lib distanceMeters_spec at heq
  dsimp only [] at heq
  rw [h1, h2] at heq
  have hcancel1 := mul_right_cancel₀ (by norm_num : (1000 : ℝ) ≠ 0) heq
  have hR : (2 * EARTH_RADIUS_KM : ℝ) ≠ 0 := by
    unfold EARTH_RADIUS_KM
    norm_num
  have hcancel2 := mul_left_cancel₀ hR hcancel1
  exact absurd hcancel2 (ne_of_gt harc)

end BencinApi
